import Mathlib

/-!
# OpenSim `Logger.cpp`: a shallow embedding

The file-scope statics of `OpenSim/Common/Logger.cpp` (the two spdlog loggers,
the file-sink handle, the auto-initialization flag and the function-local
static of `initFileLoggingAsNeeded`) become the fields of one record,
`Globals`; every function of the translation unit becomes a function on that
record.  The outcome of opening a file is a Boolean argument (`true`: the
`basic_file_sink_mt` constructor returns, `false`: it throws).
-/

namespace OpenSim

/-- The enumeration `Logger::Level`, with the seven enumerators that the
switches of `Logger.cpp` name. -/
inductive Level where
  | Off | Critical | Error | Warn | Info | Debug | Trace
  deriving DecidableEq, Repr

namespace spdlog

/-- The enumeration `spdlog::level::level_enum`, in declaration order; its
eighth enumerator `n_levels` is the one no `case` of `getLevel` names. -/
inductive level_enum where
  | trace | debug | info | warn | err | critical | off | n_levels
  deriving DecidableEq, Repr

/-- Underlying integer of a `level_enum` value. -/
def level_enum.toNat : level_enum → Nat
  | .trace => 0
  | .debug => 1
  | .info => 2
  | .warn => 3
  | .err => 4
  | .critical => 5
  | .off => 6
  | .n_levels => 7

end spdlog

/-- A `basic_file_sink_mt` object: `addr` is the identity of the allocation
made by `std::make_shared`, `filename` the path it was opened at. -/
structure FileSink where
  addr : Nat
  filename : String
  deriving DecidableEq, Repr

/-- A `std::shared_ptr<spdlog::sinks::sink>`; equality is handle identity.
`console` are the colour stdout sinks the two loggers are created with,
`file` is a `basic_file_sink_mt` seen through `static_pointer_cast`, `custom`
a caller's `LogSink`. -/
inductive Sink where
  | console (addr : Nat)
  | file (f : FileSink)
  | custom (addr : Nat)
  deriving DecidableEq, Repr

/-- Whether a sink handle is a file sink. -/
def Sink.isFile : Sink → Bool
  | .file _ => true
  | _ => false

/-- One message handed to one sink. -/
structure Delivery where
  sink : Sink
  channel : String
  level : spdlog.level_enum
  text : String
  deriving DecidableEq, Repr

namespace spdlog

/-- The part of `spdlog::logger` that `Logger.cpp` touches: the name, the sink
vector and the level. -/
structure logger where
  name : String
  sinks : List Sink
  level : level_enum
  deriving DecidableEq, Repr

/-- The method `logger::should_log`: `msg_level >= level_`. -/
def logger.should_log (lg : logger) (msg_level : level_enum) : Bool :=
  decide (lg.level.toNat ≤ msg_level.toNat)

/-- The method `logger::log`: an admitted message goes to every sink of the
logger, in the order of the sink vector. -/
def logger.log (lg : logger) (lvl : level_enum) (msg : String) : List Delivery :=
  if lg.should_log lvl then lg.sinks.map (fun s => Delivery.mk s lg.name lvl msg) else []

end spdlog

/-- The file-scope state of `Logger.cpp`.  `initialized` tells whether the
initializer of the function-local static of `initFileLoggingAsNeeded` has
run; `nextAddr` is the allocator's next fresh identity; `written` records
what the sinks received; `autoAttempts` counts the calls of `addFileSink`
made by that initializer (bookkeeping only, no function reads it). -/
structure Globals where
  cout_logger : spdlog.logger
  default_logger : spdlog.logger
  m_filesink : Option FileSink
  filesink_auto_initialization_disabled : Bool
  initialized : Bool
  nextAddr : Nat
  written : List Delivery
  autoAttempts : Nat
  deriving DecidableEq, Repr

/-- State after static initialization: each logger has its own stdout sink
and level `info`, there is no file sink, nothing was written. -/
def Globals.initial : Globals where
  cout_logger := spdlog.logger.mk "cout" [Sink.console 0] spdlog.level_enum.info
  default_logger := spdlog.logger.mk "" [Sink.console 1] spdlog.level_enum.info
  m_filesink := none
  filesink_auto_initialization_disabled := false
  initialized := false
  nextAddr := 2
  written := []
  autoAttempts := 0

/-- Modelled from the spec: the default argument of `addFileSink`, declared in
`Logger.h` (not among the sources); the spec calls it "a fixed default path"
and the comment above `m_filesink` names `opensim.log`. -/
def defaultLogFile : String := "opensim.log"

/-- Modelled from the spec: `IO::Lowercase` of `IO.h` (not among the sources);
the spec asks for case-insensitive level names, so every character goes
through `tolower`. -/
def Lowercase (str : String) : String :=
  String.mk (str.data.map Char.toLower)

/-- A function that may leave by `OPENSIM_THROW`: the state it leaves behind
and the message of the exception, if one was thrown. -/
structure Outcome where
  state : Globals
  thrown : Option String
  deriving DecidableEq, Repr

/-- The erase-remove idiom `v.erase(std::remove(v.begin(), v.end(), value),
v.end())`: one pass from the front that keeps the elements different from
`value`. -/
def eraseRemove (value : Sink) : List Sink → List Sink
  | [] => []
  | x :: xs => if x = value then eraseRemove value xs else x :: eraseRemove value xs

/-- The call `default_logger->warn(...)`: written straight to the default
logger, without passing through `getDefaultLogger`. -/
def default_logger_warn (msg : String) (g : Globals) : Globals :=
  { g with written := g.written ++ g.default_logger.log spdlog.level_enum.warn msg }

/-- The function `addSinkInternal`. -/
def addSinkInternal (sink : Sink) (g : Globals) : Globals :=
  { g with
    cout_logger := { g.cout_logger with sinks := g.cout_logger.sinks ++ [sink] }
    default_logger := { g.default_logger with sinks := g.default_logger.sinks ++ [sink] } }

/-- The function `removeSinkInternal`. -/
def removeSinkInternal (sink : Sink) (g : Globals) : Globals :=
  { g with
    default_logger := { g.default_logger with sinks := eraseRemove sink g.default_logger.sinks }
    cout_logger := { g.cout_logger with sinks := eraseRemove sink g.cout_logger.sinks } }

/-- The function `spdlog::set_level`: the registry sets the level of every
registered logger, here the `cout` logger and the default logger. -/
def spdlog.set_level (lvl : spdlog.level_enum) (g : Globals) : Globals :=
  { g with
    cout_logger := { g.cout_logger with level := lvl }
    default_logger := { g.default_logger with level := lvl } }

namespace Logger

/-- The level switch shared by `setLevel` and `shouldLog`. -/
def toSpdlog : Level → spdlog.level_enum
  | .Off => .off
  | .Critical => .critical
  | .Error => .err
  | .Warn => .warn
  | .Info => .info
  | .Debug => .debug
  | .Trace => .trace

/-- The method `Logger::addFileSink`. -/
def addFileSink (opens : Bool) (filepath : String) (g : Globals) : Globals :=
  match g.m_filesink with
  | some f =>
    default_logger_warn
      ("Already logging to file '" ++ f.filename ++
        "'; log file not added. Call removeFileSink() first.") g
  | none =>
    if opens then
      addSinkInternal (Sink.file (FileSink.mk g.nextAddr filepath))
        { g with m_filesink := some (FileSink.mk g.nextAddr filepath), nextAddr := g.nextAddr + 1 }
    else
      default_logger_warn
        ("Can't open file '" ++ filepath ++
          "' for writing. Log file will not be created. " ++
          "Check that you have write permissions to the specified path.") g

/-- The method `Logger::removeFileSink`. -/
def removeFileSink (g : Globals) : Globals :=
  match g.m_filesink with
  | none => { g with filesink_auto_initialization_disabled := true }
  | some f => { removeSinkInternal (Sink.file f) g with m_filesink := none }

/-- The method `Logger::addSink`; the caller's `LogSink` has identity `addr`. -/
def addSink (addr : Nat) (g : Globals) : Globals :=
  addSinkInternal (Sink.custom addr) g

/-- The method `Logger::removeSink`. -/
def removeSink (addr : Nat) (g : Globals) : Globals :=
  removeSinkInternal (Sink.custom addr) g

/-- The function `initFileLoggingAsNeeded`.  `disableLogFile` is the
compile-time define `OPENSIM_DISABLE_LOG_FILE`; otherwise the initializer of
the function-local static runs on the first call only. -/
def initFileLoggingAsNeeded (disableLogFile opens : Bool) (g : Globals) : Globals :=
  if disableLogFile then g
  else if g.initialized then g
  else if g.filesink_auto_initialization_disabled then { g with initialized := true }
  else
    { addFileSink opens defaultLogFile { g with autoAttempts := g.autoAttempts + 1 } with
      initialized := true }

/-- The method `Logger::getCoutLogger`; the logger it returns is the field
`cout_logger` of the resulting state. -/
def getCoutLogger (disableLogFile opens : Bool) (g : Globals) : Globals :=
  initFileLoggingAsNeeded disableLogFile opens g

/-- The method `Logger::getDefaultLogger`; the logger it returns is the field
`default_logger` of the resulting state. -/
def getDefaultLogger (disableLogFile opens : Bool) (g : Globals) : Globals :=
  initFileLoggingAsNeeded disableLogFile opens g

/-- The method `Logger::getLevel`. -/
def getLevel (g : Globals) : Except String Level :=
  match g.default_logger.level with
  | .off => .ok Level.Off
  | .critical => .ok Level.Critical
  | .err => .ok Level.Error
  | .warn => .ok Level.Warn
  | .info => .ok Level.Info
  | .debug => .ok Level.Debug
  | .trace => .ok Level.Trace
  | .n_levels => .error "Internal error."

/-- The method `Logger::getLevelString`. -/
def getLevelString (g : Globals) : Except String String :=
  match getLevel g with
  | .error e => .error e
  | .ok Level.Off => .ok "Off"
  | .ok Level.Critical => .ok "Critical"
  | .ok Level.Error => .ok "Error"
  | .ok Level.Warn => .ok "Warn"
  | .ok Level.Info => .ok "Info"
  | .ok Level.Debug => .ok "Debug"
  | .ok Level.Trace => .ok "Trace"

/-- The method `Logger::shouldLog`. -/
def shouldLog (level : Level) (g : Globals) : Bool :=
  g.default_logger.should_log (toSpdlog level)

/-- Modelled from the spec: the entry point `Logger::info` of `Logger.h` (not
among the sources).  As the spec orders it, the entry point first makes sure
the lazy initializer has run (it obtains the default channel through
`getDefaultLogger`), and then, if `shouldLog(Level::Info)` holds, forwards the
rendered text to every sink of the default channel. -/
def info (disableLogFile opens : Bool) (msg : String) (g : Globals) : Globals :=
  let g1 := getDefaultLogger disableLogFile opens g
  if shouldLog Level.Info g1 then
    { g1 with written := g1.written ++ g1.default_logger.log spdlog.level_enum.info msg }
  else g1

/-- Modelled from the spec: the console-only entry point `Logger::cout` of
`Logger.h` (not among the sources): the text is written to the console
channel only, obtained through `getCoutLogger`, whatever the threshold. -/
def cout (disableLogFile opens : Bool) (msg : String) (g : Globals) : Globals :=
  let g1 := getCoutLogger disableLogFile opens g
  { g1 with written := g1.written ++ g1.cout_logger.log g1.cout_logger.level msg }

/-- The method `Logger::setLevel`.  The argument `getLevelString()` of the
confirmation is evaluated before `Logger::info` is entered. -/
def setLevel (disableLogFile opens : Bool) (level : Level) (g : Globals) : Outcome :=
  let g1 := spdlog.set_level (toSpdlog level) g
  match getLevelString g1 with
  | .error e => Outcome.mk g1 (some e)
  | .ok name => Outcome.mk (info disableLogFile opens ("Set log level to " ++ name ++ ".") g1) none

/-- The method `Logger::setLevelString`. -/
def setLevelString (disableLogFile opens : Bool) (str : String) (g : Globals) : Outcome :=
  let str := Lowercase str
  if str = "off" then setLevel disableLogFile opens Level.Off g
  else if str = "critical" then setLevel disableLogFile opens Level.Critical g
  else if str = "error" then setLevel disableLogFile opens Level.Error g
  else if str = "warn" then setLevel disableLogFile opens Level.Warn g
  else if str = "info" then setLevel disableLogFile opens Level.Info g
  else if str = "debug" then setLevel disableLogFile opens Level.Debug g
  else if str = "trace" then setLevel disableLogFile opens Level.Trace g
  else
    Outcome.mk g (some ("Expected log level to be Off, Critical, Error, " ++
      "Warn, Info, Debug, or Trace; got " ++ str ++ "."))

end Logger

/-- One call into the logging facility.  `opens` is the outcome of opening
the log file, should the call get that far. -/
inductive Op where
  | addFileSink (filepath : String) (opens : Bool)
  | removeFileSink
  | addSink (addr : Nat)
  | removeSink (addr : Nat)
  | setLevel (level : Level) (opens : Bool)
  | getDefaultLogger (opens : Bool)
  | getCoutLogger (opens : Bool)
  deriving DecidableEq, Repr

/-- The state after one call. -/
def step (disableLogFile : Bool) (g : Globals) : Op → Globals
  | .addFileSink filepath opens => Logger.addFileSink opens filepath g
  | .removeFileSink => Logger.removeFileSink g
  | .addSink addr => Logger.addSink addr g
  | .removeSink addr => Logger.removeSink addr g
  | .setLevel level opens => (Logger.setLevel disableLogFile opens level g).state
  | .getDefaultLogger opens => Logger.getDefaultLogger disableLogFile opens g
  | .getCoutLogger opens => Logger.getCoutLogger disableLogFile opens g

/-- The state after a sequence of calls, first call first. -/
def run (disableLogFile : Bool) (g : Globals) (ops : List Op) : Globals :=
  ops.foldl (step disableLogFile) g

/-- Whether an operation is a bare logger access. -/
def Op.isAccess : Op → Bool
  | .getDefaultLogger _ => true
  | .getCoutLogger _ => true
  | _ => false

/-- The verbosity rank `Off < Critical < Error < Warn < Info < Debug < Trace`
of the specification. -/
def rank : Level → Nat
  | .Off => 0
  | .Critical => 1
  | .Error => 2
  | .Warn => 3
  | .Info => 4
  | .Debug => 5
  | .Trace => 6

/-- The seven recognized level names of the specification, in lower case. -/
def levelName : Level → String
  | .Off => "off"
  | .Critical => "critical"
  | .Error => "error"
  | .Warn => "warn"
  | .Info => "info"
  | .Debug => "debug"
  | .Trace => "trace"

/-- Whether `cs` spells `name` in some mix of upper and lower case: same
length, and each character is the one of `name` or its upper-case form. -/
def mixedCase : List Char → List Char → Bool
  | [], [] => true
  | n :: ns, c :: cs => (c == n || c == n.toUpper) && mixedCase ns cs
  | _, _ => false

/-- Whether a call can reach `initFileLoggingAsNeeded`: the two logger
accesses, and `setLevel` through its confirmation message. -/
def Op.reachesGate : Op → Bool
  | .getDefaultLogger _ => true
  | .getCoutLogger _ => true
  | .setLevel _ _ => true
  | _ => false

/-- The text that `getLevelString` returns when the threshold is the given
level (the table of its `switch`). -/
def levelText : Level → String
  | .Off => "Off"
  | .Critical => "Critical"
  | .Error => "Error"
  | .Warn => "Warn"
  | .Info => "Info"
  | .Debug => "Debug"
  | .Trace => "Trace"

/-- Whether the first list is an initial segment of the second. -/
def beginsWith : List Char → List Char → Bool
  | [], _ => true
  | _ :: _, [] => false
  | a :: as, b :: bs => a == b && beginsWith as bs

/-- Whether `needle` occurs in `hay` as a contiguous run of characters. -/
def occursIn (needle : List Char) : List Char → Bool
  | [] => beginsWith needle []
  | c :: cs => beginsWith needle (c :: cs) || occursIn needle cs

/-- Whether a call is an explicit `addFileSink`. -/
def Op.isAddFileSink : Op → Bool
  | .addFileSink _ _ => true
  | _ => false

/-- The file sinks a channel is expected to hold, given the handle
`m_filesink`: none when the handle is empty, else the sink it refers to. -/
def fileSinksOf : Option FileSink → List Sink
  | none => []
  | some f => [Sink.file f]

/-- The file sinks of each channel are those of the handle `m_filesink`. -/
def FileSinkInv (g : Globals) : Prop :=
  g.cout_logger.sinks.filter Sink.isFile = fileSinksOf g.m_filesink ∧
    g.default_logger.sinks.filter Sink.isFile = fileSinksOf g.m_filesink

end OpenSim

namespace OpenSim

/-! ## Levels -/

theorem addFileSink_default_level (o : Bool) (p : String) (g : Globals) :
    (Logger.addFileSink o p g).default_logger.level = g.default_logger.level := by
  unfold Logger.addFileSink
  cases g.m_filesink <;> cases o <;> rfl

theorem initFileLoggingAsNeeded_default_level (d o : Bool) (g : Globals) :
    (Logger.initFileLoggingAsNeeded d o g).default_logger.level = g.default_logger.level := by
  unfold Logger.initFileLoggingAsNeeded
  split
  · rfl
  · split
    · rfl
    · split
      · rfl
      · exact addFileSink_default_level o defaultLogFile _

theorem info_default_level (d o : Bool) (msg : String) (g : Globals) :
    (Logger.info d o msg g).default_logger.level = g.default_logger.level := by
  unfold Logger.info
  simp only []
  split
  · exact initFileLoggingAsNeeded_default_level d o g
  · exact initFileLoggingAsNeeded_default_level d o g

theorem setLevel_thrown (d o : Bool) (T : Level) (g : Globals) :
    (Logger.setLevel d o T g).thrown = none := by
  cases T <;> rfl

theorem setLevel_default_level (d o : Bool) (T : Level) (g : Globals) :
    (Logger.setLevel d o T g).state.default_logger.level = Logger.toSpdlog T := by
  cases T <;> exact info_default_level d o _ _

/-- C2: after `setLevel(T)` (which returns normally), `shouldLog(L)` is true
exactly when the verbosity rank of `L` is at most the rank of `T`, for every
threshold `T`, every query level `L` and every prior state. -/
theorem C2_shouldLog_iff_rank (d o : Bool) (T L : Level) (g : Globals) :
    (Logger.setLevel d o T g).thrown = none ∧
      (Logger.shouldLog L (Logger.setLevel d o T g).state = true ↔ rank L ≤ rank T) := by
  refine ⟨setLevel_thrown d o T g, ?_⟩
  unfold Logger.shouldLog spdlog.logger.should_log
  rw [setLevel_default_level]
  cases T <;> cases L <;> decide

end OpenSim

namespace OpenSim

/-! ## Sink lists -/

theorem eraseRemove_eq_filter (v : Sink) (l : List Sink) :
    eraseRemove v l = l.filter (fun x => decide (x ≠ v)) := by
  induction l with
  | nil => rfl
  | cons x xs ih =>
    by_cases h : x = v
    · simp [eraseRemove, h, ih]
    · simp [eraseRemove, h, ih]

theorem filter_isFile_append_custom (l : List Sink) (a : Nat) :
    (l ++ [Sink.custom a]).filter Sink.isFile = l.filter Sink.isFile := by
  simp [List.filter_append, Sink.isFile]

theorem filter_isFile_eraseRemove_custom (l : List Sink) (a : Nat) :
    (eraseRemove (Sink.custom a) l).filter Sink.isFile = l.filter Sink.isFile := by
  induction l with
  | nil => rfl
  | cons x xs ih =>
    cases x <;> simp [eraseRemove, Sink.isFile, List.filter_cons, ih]
    split <;> simp [Sink.isFile, ih]

theorem filter_isFile_eraseRemove_file (l : List Sink) (f : FileSink)
    (h : l.filter Sink.isFile = [Sink.file f]) :
    (eraseRemove (Sink.file f) l).filter Sink.isFile = [] := by
  rw [eraseRemove_eq_filter, List.filter_filter]
  have h2 : List.filter (fun x => decide (x ≠ Sink.file f)) (l.filter Sink.isFile) = [] := by
    rw [h]; simp
  rw [List.filter_filter] at h2
  rw [← h2]
  congr 1
  funext x
  exact Bool.and_comm _ _

theorem FileSinkInv_initial : FileSinkInv Globals.initial := by
  constructor <;> rfl

theorem FileSinkInv_addFileSink (o : Bool) (p : String) (g : Globals) (h : FileSinkInv g) :
    FileSinkInv (Logger.addFileSink o p g) := by
  unfold Logger.addFileSink
  cases hm : g.m_filesink with
  | some f => simpa [FileSinkInv, default_logger_warn, hm] using h
  | none =>
    cases o with
    | false => simpa [FileSinkInv, default_logger_warn, hm] using h
    | true =>
      obtain ⟨h1, h2⟩ := h
      rw [hm] at h1 h2
      simp [FileSinkInv, addSinkInternal, List.filter_append, h1, h2, fileSinksOf, Sink.isFile]

theorem FileSinkInv_removeFileSink (g : Globals) (h : FileSinkInv g) :
    FileSinkInv (Logger.removeFileSink g) := by
  unfold Logger.removeFileSink
  cases hm : g.m_filesink with
  | none => simpa [FileSinkInv, hm] using h
  | some f =>
    obtain ⟨h1, h2⟩ := h
    rw [hm] at h1 h2
    exact ⟨filter_isFile_eraseRemove_file _ f h1, filter_isFile_eraseRemove_file _ f h2⟩

theorem FileSinkInv_addSink (a : Nat) (g : Globals) (h : FileSinkInv g) :
    FileSinkInv (Logger.addSink a g) := by
  obtain ⟨h1, h2⟩ := h
  exact ⟨(filter_isFile_append_custom _ a).trans h1, (filter_isFile_append_custom _ a).trans h2⟩

theorem FileSinkInv_removeSink (a : Nat) (g : Globals) (h : FileSinkInv g) :
    FileSinkInv (Logger.removeSink a g) := by
  obtain ⟨h1, h2⟩ := h
  exact ⟨(filter_isFile_eraseRemove_custom _ a).trans h1,
    (filter_isFile_eraseRemove_custom _ a).trans h2⟩

theorem FileSinkInv_initFileLoggingAsNeeded (d o : Bool) (g : Globals) (h : FileSinkInv g) :
    FileSinkInv (Logger.initFileLoggingAsNeeded d o g) := by
  unfold Logger.initFileLoggingAsNeeded
  split
  · exact h
  · split
    · exact h
    · split
      · exact h
      · exact FileSinkInv_addFileSink o defaultLogFile
          { g with autoAttempts := g.autoAttempts + 1 } h

theorem FileSinkInv_info (d o : Bool) (msg : String) (g : Globals) (h : FileSinkInv g) :
    FileSinkInv (Logger.info d o msg g) := by
  unfold Logger.info
  simp only []
  split
  · exact FileSinkInv_initFileLoggingAsNeeded d o g h
  · exact FileSinkInv_initFileLoggingAsNeeded d o g h

theorem FileSinkInv_setLevel (d o : Bool) (T : Level) (g : Globals) (h : FileSinkInv g) :
    FileSinkInv (Logger.setLevel d o T g).state := by
  cases T <;> exact FileSinkInv_info d o _ _ h

theorem FileSinkInv_step (d : Bool) (g : Globals) (op : Op) (h : FileSinkInv g) :
    FileSinkInv (step d g op) := by
  cases op with
  | addFileSink p o => exact FileSinkInv_addFileSink o p g h
  | removeFileSink => exact FileSinkInv_removeFileSink g h
  | addSink a => exact FileSinkInv_addSink a g h
  | removeSink a => exact FileSinkInv_removeSink a g h
  | setLevel T o => exact FileSinkInv_setLevel d o T g h
  | getDefaultLogger o => exact FileSinkInv_initFileLoggingAsNeeded d o g h
  | getCoutLogger o => exact FileSinkInv_initFileLoggingAsNeeded d o g h

theorem FileSinkInv_run_from (d : Bool) (ops : List Op) (g : Globals) (h : FileSinkInv g) :
    FileSinkInv (run d g ops) := by
  induction ops generalizing g with
  | nil => exact h
  | cons op ops ih => exact ih (step d g op) (FileSinkInv_step d g op h)

theorem FileSinkInv_run (d : Bool) (ops : List Op) : FileSinkInv (run d Globals.initial ops) :=
  FileSinkInv_run_from d ops _ FileSinkInv_initial

theorem mem_file_iff_of_filter (l : List Sink) (m : Option FileSink)
    (h : l.filter Sink.isFile = fileSinksOf m) (f : FileSink) :
    Sink.file f ∈ l ↔ m = some f := by
  have key : Sink.file f ∈ l ↔ Sink.file f ∈ l.filter Sink.isFile := by
    simp [List.mem_filter, Sink.isFile]
  rw [key, h]
  cases m with
  | none => simp [fileSinksOf]
  | some f2 =>
    simp [fileSinksOf]
    exact eq_comm

end OpenSim

namespace OpenSim

/-! ## The console channel and the file sink -/

theorem log_own_level_sinks (lg : spdlog.logger) (msg : String) :
    (lg.log lg.level msg).map Delivery.sink = lg.sinks := by
  simp [spdlog.logger.log, spdlog.logger.should_log, Function.comp_def]

/-- C1, the claim refuted: after one successful `addFileSink("my.log")` from
the initial state the console channel's sink list holds the file sink, and a
message written through the console-only entry point is delivered to it. -/
theorem console_channel_holds_file_sink :
    (run false Globals.initial [Op.addFileSink "my.log" true]).m_filesink
        = some (FileSink.mk 2 "my.log") ∧
      Sink.file (FileSink.mk 2 "my.log")
        ∈ (run false Globals.initial [Op.addFileSink "my.log" true]).cout_logger.sinks ∧
      Delivery.mk (Sink.file (FileSink.mk 2 "my.log")) "cout" spdlog.level_enum.info "progress"
        ∈ (Logger.cout false true "progress"
            (run false Globals.initial [Op.addFileSink "my.log" true])).written := by
  decide

/-- C1 (amended): in every state reachable from the initial state by
`addFileSink`, `removeFileSink`, `addSink`, `removeSink`, `setLevel` and
logger accesses, the console channel's sink list contains a file sink exactly
when the file-sink handle refers to it (every sink is attached to both
channels); hence a message written through the console-only entry point is
delivered to a file sink exactly when that sink is the attached one, and to
no file sink when none is attached. -/
theorem console_file_sink_iff_attached (d : Bool) (ops : List Op) :
    (∀ f, Sink.file f ∈ (run d Globals.initial ops).cout_logger.sinks ↔
        (run d Globals.initial ops).m_filesink = some f) ∧
      (∀ (o : Bool) (msg : String), ∃ news,
        (Logger.cout d o msg (run d Globals.initial ops)).written
            = (Logger.getCoutLogger d o (run d Globals.initial ops)).written ++ news ∧
          ∀ f, Sink.file f ∈ news.map Delivery.sink ↔
            (Logger.cout d o msg (run d Globals.initial ops)).m_filesink = some f) := by
  have hinv := FileSinkInv_run d ops
  refine ⟨mem_file_iff_of_filter _ _ hinv.1, ?_⟩
  intro o msg
  have h1 := FileSinkInv_initFileLoggingAsNeeded d o _ hinv
  refine ⟨_, rfl, ?_⟩
  intro f
  rw [log_own_level_sinks]
  exact mem_file_iff_of_filter _ _ h1.1 f

/-! ## Thresholds `Off` and `Trace` -/

/-- C3, the claim refuted: with the threshold `Off` (set from the initial
state), `shouldLog(Off)` is true. -/
theorem shouldLog_Off_at_Off :
    Logger.shouldLog Level.Off
      (Logger.setLevel false true Level.Off Globals.initial).state = true := by
  decide

/-- C3 (amended): after `setLevel(Off)`, `shouldLog(L)` is false for each of
the six message levels `Critical` to `Trace` and true only for the query
`L = Off`; after `setLevel(Trace)`, `shouldLog(L)` is true for every level
`L`. -/
theorem shouldLog_at_Off_and_Trace (d o : Bool) (L : Level) (g : Globals) :
    Logger.shouldLog L (Logger.setLevel d o Level.Off g).state = decide (L = Level.Off) ∧
      Logger.shouldLog L (Logger.setLevel d o Level.Trace g).state = true := by
  unfold Logger.shouldLog spdlog.logger.should_log
  rw [setLevel_default_level, setLevel_default_level]
  cases L <;> decide

end OpenSim

namespace OpenSim

/-! ## The lazy gate -/

theorem run_append (d : Bool) (g : Globals) (ops more : List Op) :
    run d g (ops ++ more) = run d (run d g ops) more := by
  simp [run, List.foldl_append]

theorem addFileSink_gate (o : Bool) (p : String) (g : Globals) :
    (Logger.addFileSink o p g).initialized = g.initialized ∧
      (Logger.addFileSink o p g).autoAttempts = g.autoAttempts ∧
      (Logger.addFileSink o p g).filesink_auto_initialization_disabled
        = g.filesink_auto_initialization_disabled := by
  unfold Logger.addFileSink
  cases g.m_filesink <;> cases o <;> exact ⟨rfl, rfl, rfl⟩

theorem removeFileSink_gate (g : Globals) :
    (Logger.removeFileSink g).initialized = g.initialized ∧
      (Logger.removeFileSink g).autoAttempts = g.autoAttempts := by
  unfold Logger.removeFileSink
  cases g.m_filesink <;> exact ⟨rfl, rfl⟩

theorem initFileLoggingAsNeeded_fired (d o : Bool) (g : Globals) (h : g.initialized = true) :
    Logger.initFileLoggingAsNeeded d o g = g := by
  unfold Logger.initFileLoggingAsNeeded
  simp [h]

theorem initFileLoggingAsNeeded_first (o : Bool) (g : Globals) (h : g.initialized = false)
    (hs : g.filesink_auto_initialization_disabled = false) :
    Logger.initFileLoggingAsNeeded false o g =
      { Logger.addFileSink o defaultLogFile { g with autoAttempts := g.autoAttempts + 1 } with
        initialized := true } := by
  unfold Logger.initFileLoggingAsNeeded
  simp [h, hs]

theorem initFileLoggingAsNeeded_suppressed (o : Bool) (g : Globals) (h : g.initialized = false)
    (hs : g.filesink_auto_initialization_disabled = true) :
    Logger.initFileLoggingAsNeeded false o g = { g with initialized := true } := by
  unfold Logger.initFileLoggingAsNeeded
  simp [h, hs]

theorem initFileLoggingAsNeeded_sets (o : Bool) (g : Globals) :
    (Logger.initFileLoggingAsNeeded false o g).initialized = true := by
  unfold Logger.initFileLoggingAsNeeded
  cases hi : g.initialized <;> cases hs : g.filesink_auto_initialization_disabled <;> simp [hi]

/-- The gate's bookkeeping: at most one automatic attempt, and none before
the initializer has run. -/
theorem initFileLoggingAsNeeded_attempts (d o : Bool) (g : Globals)
    (h : g.autoAttempts ≤ 1 ∧ (g.initialized = false → g.autoAttempts = 0)) :
    (Logger.initFileLoggingAsNeeded d o g).autoAttempts ≤ 1 ∧
      ((Logger.initFileLoggingAsNeeded d o g).initialized = false →
        (Logger.initFileLoggingAsNeeded d o g).autoAttempts = 0) := by
  unfold Logger.initFileLoggingAsNeeded
  cases d
  · cases hi : g.initialized
    · cases hs : g.filesink_auto_initialization_disabled
      · have h0 := h.2 hi
        simp [(addFileSink_gate o defaultLogFile _).2.1, h0]
      · simp [h.2 hi]
    · simpa [hi] using h
  · simpa using h

theorem info_eq (d o : Bool) (msg : String) (g : Globals) :
    Logger.info d o msg g = g ∨
      ∃ w, Logger.info d o msg g = { Logger.initFileLoggingAsNeeded d o g with written := w } := by
  unfold Logger.info
  simp only []
  split
  · exact Or.inr ⟨_, rfl⟩
  · exact Or.inr ⟨_, rfl⟩

theorem setLevel_eq (d o : Bool) (T : Level) (g : Globals) :
    ∃ msg, (Logger.setLevel d o T g).state
      = Logger.info d o msg (spdlog.set_level (Logger.toSpdlog T) g) := by
  cases T <;> exact ⟨_, rfl⟩

theorem step_attempts (d : Bool) (g : Globals) (op : Op)
    (h : g.autoAttempts ≤ 1 ∧ (g.initialized = false → g.autoAttempts = 0)) :
    (step d g op).autoAttempts ≤ 1 ∧
      ((step d g op).initialized = false → (step d g op).autoAttempts = 0) := by
  cases op with
  | addFileSink p o =>
    obtain ⟨h1, h2, _⟩ := addFileSink_gate o p g
    simp only [step, h1, h2]; exact h
  | removeFileSink =>
    obtain ⟨h1, h2⟩ := removeFileSink_gate g
    simp only [step, h1, h2]; exact h
  | addSink a => exact h
  | removeSink a => exact h
  | setLevel T o =>
    obtain ⟨msg, hm⟩ := setLevel_eq d o T g
    simp only [step, hm]
    rcases info_eq d o msg (spdlog.set_level (Logger.toSpdlog T) g) with he | ⟨w, he⟩
    · rw [he]; exact h
    · rw [he]; exact initFileLoggingAsNeeded_attempts d o (spdlog.set_level (Logger.toSpdlog T) g) h
  | getDefaultLogger o => exact initFileLoggingAsNeeded_attempts d o g h
  | getCoutLogger o => exact initFileLoggingAsNeeded_attempts d o g h

theorem run_attempts (d : Bool) (ops : List Op) (g : Globals)
    (h : g.autoAttempts ≤ 1 ∧ (g.initialized = false → g.autoAttempts = 0)) :
    (run d g ops).autoAttempts ≤ 1 ∧
      ((run d g ops).initialized = false → (run d g ops).autoAttempts = 0) := by
  induction ops generalizing g with
  | nil => exact h
  | cons op ops ih => exact ih (step d g op) (step_attempts d g op h)

theorem step_fired (d : Bool) (g : Globals) (op : Op) (h : g.initialized = true) :
    (step d g op).initialized = true ∧ (step d g op).autoAttempts = g.autoAttempts := by
  cases op with
  | addFileSink p o =>
    obtain ⟨h1, h2, _⟩ := addFileSink_gate o p g
    simp only [step, h1, h2, h]; trivial
  | removeFileSink =>
    obtain ⟨h1, h2⟩ := removeFileSink_gate g
    simp only [step, h1, h2, h]; trivial
  | addSink a => exact ⟨h, rfl⟩
  | removeSink a => exact ⟨h, rfl⟩
  | setLevel T o =>
    obtain ⟨msg, hm⟩ := setLevel_eq d o T g
    have hg : (spdlog.set_level (Logger.toSpdlog T) g).initialized = true := h
    simp only [step, hm]
    rcases info_eq d o msg (spdlog.set_level (Logger.toSpdlog T) g) with he | ⟨w, he⟩
    · rw [he]; exact ⟨h, rfl⟩
    · rw [he, initFileLoggingAsNeeded_fired d o _ hg]; exact ⟨h, rfl⟩
  | getDefaultLogger o =>
    simp only [step, Logger.getDefaultLogger, initFileLoggingAsNeeded_fired d o g h, h]; trivial
  | getCoutLogger o =>
    simp only [step, Logger.getCoutLogger, initFileLoggingAsNeeded_fired d o g h, h]; trivial

theorem run_fired (d : Bool) (ops : List Op) (g : Globals) (h : g.initialized = true) :
    (run d g ops).initialized = true ∧ (run d g ops).autoAttempts = g.autoAttempts := by
  induction ops generalizing g with
  | nil => exact ⟨h, rfl⟩
  | cons op ops ih =>
    obtain ⟨h1, h2⟩ := step_fired d g op h
    obtain ⟨h3, h4⟩ := ih (step d g op) h1
    exact ⟨h3, h4.trans h2⟩

theorem step_not_reaching (d : Bool) (g : Globals) (op : Op) (h : op.reachesGate = false) :
    (step d g op).initialized = g.initialized ∧ (step d g op).autoAttempts = g.autoAttempts := by
  cases op with
  | addFileSink p o => exact ⟨(addFileSink_gate o p g).1, (addFileSink_gate o p g).2.1⟩
  | removeFileSink => exact removeFileSink_gate g
  | addSink a => exact ⟨rfl, rfl⟩
  | removeSink a => exact ⟨rfl, rfl⟩
  | setLevel T o => simp [Op.reachesGate] at h
  | getDefaultLogger o => simp [Op.reachesGate] at h
  | getCoutLogger o => simp [Op.reachesGate] at h

theorem run_not_reaching (d : Bool) (ops : List Op) (g : Globals)
    (h : ∀ op ∈ ops, op.reachesGate = false) :
    (run d g ops).initialized = g.initialized ∧ (run d g ops).autoAttempts = g.autoAttempts := by
  induction ops generalizing g with
  | nil => exact ⟨rfl, rfl⟩
  | cons op ops ih =>
    obtain ⟨h1, h2⟩ := step_not_reaching d g op (h op (List.mem_cons_self _ _))
    obtain ⟨h3, h4⟩ := ih (step d g op) (fun x hx => h x (List.mem_cons_of_mem _ hx))
    exact ⟨h3.trans h1, h4.trans h2⟩

theorem run_access_fired (ops : List Op) (g : Globals)
    (h : ∃ op ∈ ops, op.isAccess = true) : (run false g ops).initialized = true := by
  induction ops generalizing g with
  | nil => simp at h
  | cons op ops ih =>
    by_cases ha : op.isAccess = true
    · have hs : (step false g op).initialized = true := by
        cases op with
        | getDefaultLogger o => exact initFileLoggingAsNeeded_sets o g
        | getCoutLogger o => exact initFileLoggingAsNeeded_sets o g
        | addFileSink p o => simp [Op.isAccess] at ha
        | removeFileSink => simp [Op.isAccess] at ha
        | addSink a => simp [Op.isAccess] at ha
        | removeSink a => simp [Op.isAccess] at ha
        | setLevel T o => simp [Op.isAccess] at ha
      exact (run_fired false ops _ hs).1
    · apply ih
      obtain ⟨x, hx, hxa⟩ := h
      rcases List.mem_cons.mp hx with rfl | hx2
      · exact absurd hxa ha
      · exact ⟨x, hx2, hxa⟩

end OpenSim

namespace OpenSim

/-- C4: along every sequence of calls from the initial state the automatic
`addFileSink()` of `initFileLoggingAsNeeded` is made at most once; it has not
been made while no call has reached the gate; in the default build the gate
has fired once a logger access has been made, and the access that finds the
gate unfired and automatic initialization not suppressed makes the attempt
(with either outcome of opening the file); and once the gate has fired, no
later call makes another attempt and every logger access leaves the state as
it is, whatever happened to the file sink meanwhile. -/
theorem lazy_gate_at_most_once (d : Bool) (ops : List Op) :
    (run d Globals.initial ops).autoAttempts ≤ 1 ∧
      ((∀ op ∈ ops, op.reachesGate = false) →
        (run d Globals.initial ops).initialized = false ∧
          (run d Globals.initial ops).autoAttempts = 0) ∧
      (d = false → (∃ op ∈ ops, op.isAccess = true) →
        (run d Globals.initial ops).initialized = true) ∧
      (d = false → (run d Globals.initial ops).initialized = false →
        (run d Globals.initial ops).filesink_auto_initialization_disabled = false →
        ∀ o : Bool,
          Logger.getDefaultLogger d o (run d Globals.initial ops) =
              { Logger.addFileSink o defaultLogFile
                  { run d Globals.initial ops with autoAttempts := 1 } with
                initialized := true } ∧
            Logger.getCoutLogger d o (run d Globals.initial ops) =
              Logger.getDefaultLogger d o (run d Globals.initial ops) ∧
            (Logger.getDefaultLogger d o (run d Globals.initial ops)).autoAttempts = 1) ∧
      ((run d Globals.initial ops).initialized = true → ∀ more : List Op,
        (run d Globals.initial (ops ++ more)).autoAttempts
            = (run d Globals.initial ops).autoAttempts ∧
          ∀ o : Bool,
            Logger.getDefaultLogger d o (run d Globals.initial (ops ++ more))
                = run d Globals.initial (ops ++ more) ∧
              Logger.getCoutLogger d o (run d Globals.initial (ops ++ more))
                = run d Globals.initial (ops ++ more)) := by
  have hinit : Globals.initial.autoAttempts ≤ 1 ∧
      (Globals.initial.initialized = false → Globals.initial.autoAttempts = 0) :=
    ⟨by decide, fun _ => rfl⟩
  have hatt := run_attempts d ops Globals.initial hinit
  refine ⟨hatt.1, ?_, ?_, ?_, ?_⟩
  · intro h
    obtain ⟨h1, h2⟩ := run_not_reaching d ops Globals.initial h
    exact ⟨h1, h2⟩
  · intro hd h
    subst hd
    exact run_access_fired ops Globals.initial h
  · intro hd hi hs o
    subst hd
    have h0 := hatt.2 hi
    have key := initFileLoggingAsNeeded_first o _ hi hs
    rw [h0] at key
    refine ⟨key, rfl, ?_⟩
    unfold Logger.getDefaultLogger
    rw [key]
    exact (addFileSink_gate o defaultLogFile _).2.1
  · intro hi more
    rw [run_append]
    obtain ⟨h1, h2⟩ := run_fired d more _ hi
    refine ⟨h2, fun o => ?_⟩
    exact ⟨initFileLoggingAsNeeded_fired d o _ h1, initFileLoggingAsNeeded_fired d o _ h1⟩

/-- C4, at concrete inputs: nothing has been attempted in the initial state,
the first access makes the one attempt (here failing to open the file), and
after an access and a removal a further access attempts nothing. -/
theorem lazy_gate_at_most_once_witness :
    ((run false Globals.initial []).initialized = false ∧
        (run false Globals.initial []).autoAttempts = 0) ∧
      (Logger.getDefaultLogger false false (run false Globals.initial [])).autoAttempts = 1 ∧
      (run false Globals.initial [Op.getDefaultLogger false, Op.removeFileSink]).initialized
        = true ∧
      (run false Globals.initial
          ([Op.getDefaultLogger false, Op.removeFileSink] ++ [Op.getCoutLogger true])).autoAttempts
        = (run false Globals.initial [Op.getDefaultLogger false, Op.removeFileSink]).autoAttempts :=
  ⟨(lazy_gate_at_most_once false []).2.1 (by simp),
    ((lazy_gate_at_most_once false []).2.2.2.1 rfl rfl rfl false).2.2,
    (lazy_gate_at_most_once false [Op.getDefaultLogger false, Op.removeFileSink]).2.2.1 rfl
      ⟨Op.getDefaultLogger false, by simp, rfl⟩,
    ((lazy_gate_at_most_once false [Op.getDefaultLogger false, Op.removeFileSink]).2.2.2.2
      (by decide) [Op.getCoutLogger true]).1⟩

end OpenSim

namespace OpenSim

/-! ## Suppression by an early `removeFileSink` -/

theorem suppressed_access (d o : Bool) (g : Globals)
    (h : g.filesink_auto_initialization_disabled = true) :
    Logger.initFileLoggingAsNeeded d o g = g ∨
      Logger.initFileLoggingAsNeeded d o g = { g with initialized := true } := by
  unfold Logger.initFileLoggingAsNeeded
  cases d <;> cases hi : g.initialized <;> simp [h]

theorem suppressed_accesses (d : Bool) (accs : List Op) (g : Globals)
    (hg : g.filesink_auto_initialization_disabled = true)
    (h : ∀ op ∈ accs, op.isAccess = true) :
    run d g accs = g ∨ run d g accs = { g with initialized := true } := by
  induction accs generalizing g with
  | nil => exact Or.inl rfl
  | cons op ops ih =>
    have hop := h op (List.mem_cons_self _ _)
    have hrest : ∀ x ∈ ops, x.isAccess = true := fun x hx => h x (List.mem_cons_of_mem _ hx)
    have hstep : step d g op = g ∨ step d g op = { g with initialized := true } := by
      cases op with
      | getDefaultLogger o => exact suppressed_access d o g hg
      | getCoutLogger o => exact suppressed_access d o g hg
      | addFileSink p o => simp [Op.isAccess] at hop
      | removeFileSink => simp [Op.isAccess] at hop
      | addSink a => simp [Op.isAccess] at hop
      | removeSink a => simp [Op.isAccess] at hop
      | setLevel T o => simp [Op.isAccess] at hop
    show run d (step d g op) ops = g ∨ run d (step d g op) ops = { g with initialized := true }
    rcases hstep with hs | hs
    · rw [hs]; exact ih g hg hrest
    · rw [hs]
      rcases ih { g with initialized := true } hg hrest with h2 | h2
      · exact Or.inr h2
      · exact Or.inr h2

/-- C5: from the initial state, after `removeFileSink()` every sequence of
logger accesses leaves the file-sink handle empty and both channels' sink
lists as they were, with no automatic attempt made; and an explicit
`addFileSink(path)` whose file opens then attaches a file sink at `path` to
the channels. -/
theorem removeFileSink_first_suppresses (d : Bool) (accs : List Op)
    (h : ∀ op ∈ accs, op.isAccess = true) :
    (run d (Logger.removeFileSink Globals.initial) accs).m_filesink = none ∧
      (run d (Logger.removeFileSink Globals.initial) accs).cout_logger.sinks
        = Globals.initial.cout_logger.sinks ∧
      (run d (Logger.removeFileSink Globals.initial) accs).default_logger.sinks
        = Globals.initial.default_logger.sinks ∧
      (run d (Logger.removeFileSink Globals.initial) accs).autoAttempts = 0 ∧
      ∀ path : String,
        (Logger.addFileSink true path
            (run d (Logger.removeFileSink Globals.initial) accs)).m_filesink
          = some (FileSink.mk 2 path) ∧
        (Logger.addFileSink true path
            (run d (Logger.removeFileSink Globals.initial) accs)).default_logger.sinks
          = [Sink.console 1, Sink.file (FileSink.mk 2 path)] ∧
        (Logger.addFileSink true path
            (run d (Logger.removeFileSink Globals.initial) accs)).cout_logger.sinks
          = [Sink.console 0, Sink.file (FileSink.mk 2 path)] := by
  rcases suppressed_accesses d accs (Logger.removeFileSink Globals.initial) rfl h with hr | hr
  · rw [hr]
    exact ⟨rfl, rfl, rfl, rfl, fun _ => ⟨rfl, rfl, rfl⟩⟩
  · rw [hr]
    exact ⟨rfl, rfl, rfl, rfl, fun _ => ⟨rfl, rfl, rfl⟩⟩

/-- C5, at a concrete input: `removeFileSink()`, two logger accesses, then
`addFileSink("mine.log")`. -/
theorem removeFileSink_first_suppresses_witness :
    (run false (Logger.removeFileSink Globals.initial)
        [Op.getDefaultLogger true, Op.getCoutLogger true]).m_filesink = none ∧
      (Logger.addFileSink true "mine.log"
          (run false (Logger.removeFileSink Globals.initial)
            [Op.getDefaultLogger true, Op.getCoutLogger true])).m_filesink
        = some (FileSink.mk 2 "mine.log") :=
  ⟨(removeFileSink_first_suppresses false [Op.getDefaultLogger true, Op.getCoutLogger true]
      (by decide)).1,
    ((removeFileSink_first_suppresses false [Op.getDefaultLogger true, Op.getCoutLogger true]
      (by decide)).2.2.2.2 "mine.log").1⟩

/-! ## A second `addFileSink` -/

theorem addFileSink_attached (o : Bool) (p : String) (g : Globals) (f : FileSink)
    (h : g.m_filesink = some f) :
    Logger.addFileSink o p g =
      default_logger_warn
        ("Already logging to file '" ++ f.filename ++
          "'; log file not added. Call removeFileSink() first.") g := by
  unfold Logger.addFileSink
  rw [h]

/-- C8: in a reachable state without a file sink, after an `addFileSink(p1)`
whose file opens, a following `addFileSink(p2)` (whether or not `p2` could be
opened) changes nothing but the log output: the handle still refers to the
sink opened at `p1`, both channels' sink lists are those left by the first
call, and each holds exactly that one file sink. -/
theorem addFileSink_twice (d o2 : Bool) (ops : List Op) (p1 p2 : String)
    (h : (run d Globals.initial ops).m_filesink = none) :
    (Logger.addFileSink true p1 (run d Globals.initial ops)).m_filesink
        = some (FileSink.mk (run d Globals.initial ops).nextAddr p1) ∧
      (∃ w, Logger.addFileSink o2 p2 (Logger.addFileSink true p1 (run d Globals.initial ops))
        = { Logger.addFileSink true p1 (run d Globals.initial ops) with written := w }) ∧
      (Logger.addFileSink o2 p2
          (Logger.addFileSink true p1 (run d Globals.initial ops))).m_filesink
        = some (FileSink.mk (run d Globals.initial ops).nextAddr p1) ∧
      (Logger.addFileSink o2 p2
          (Logger.addFileSink true p1 (run d Globals.initial ops))).cout_logger.sinks
        = (Logger.addFileSink true p1 (run d Globals.initial ops)).cout_logger.sinks ∧
      (Logger.addFileSink o2 p2
          (Logger.addFileSink true p1 (run d Globals.initial ops))).default_logger.sinks
        = (Logger.addFileSink true p1 (run d Globals.initial ops)).default_logger.sinks ∧
      (Logger.addFileSink o2 p2
          (Logger.addFileSink true p1 (run d Globals.initial ops))).cout_logger.sinks.filter
            Sink.isFile
        = [Sink.file (FileSink.mk (run d Globals.initial ops).nextAddr p1)] ∧
      (Logger.addFileSink o2 p2
          (Logger.addFileSink true p1 (run d Globals.initial ops))).default_logger.sinks.filter
            Sink.isFile
        = [Sink.file (FileSink.mk (run d Globals.initial ops).nextAddr p1)] := by
  have hinv := FileSinkInv_run d ops
  generalize run d Globals.initial ops = g at h hinv
  have h1 : (Logger.addFileSink true p1 g).m_filesink = some (FileSink.mk g.nextAddr p1) := by
    simp [Logger.addFileSink, h, addSinkInternal]
  have h2 : Logger.addFileSink o2 p2 (Logger.addFileSink true p1 g)
      = default_logger_warn
          ("Already logging to file '" ++ p1 ++
            "'; log file not added. Call removeFileSink() first.")
          (Logger.addFileSink true p1 g) := by
    exact addFileSink_attached o2 p2 _ _ h1
  have hinv1 := FileSinkInv_addFileSink true p1 g hinv
  rw [FileSinkInv, h1] at hinv1
  refine ⟨h1, ⟨_, h2⟩, ?_, ?_, ?_, ?_, ?_⟩
  · rw [h2]; exact h1
  · rw [h2]; rfl
  · rw [h2]; rfl
  · rw [h2]; exact hinv1.1
  · rw [h2]; exact hinv1.2

/-- C8, at a concrete input: two `addFileSink` calls from the initial
state. -/
theorem addFileSink_twice_witness :
    (Logger.addFileSink true "second.log"
        (Logger.addFileSink true "first.log" (run false Globals.initial []))).m_filesink
      = some (FileSink.mk (run false Globals.initial []).nextAddr "first.log") :=
  (addFileSink_twice false true [] "first.log" "second.log" rfl).2.2.1

end OpenSim

namespace OpenSim

/-! ## Removing sinks -/

theorem eraseRemove_not_mem (v : Sink) (l : List Sink) : v ∉ eraseRemove v l := by
  rw [eraseRemove_eq_filter]
  simp [List.mem_filter]

theorem eraseRemove_absent (v : Sink) (l : List Sink) (h : v ∉ l) : eraseRemove v l = l := by
  rw [eraseRemove_eq_filter, List.filter_eq_self]
  intro a ha
  have : a ≠ v := fun e => h (e ▸ ha)
  simpa using this

/-- C9: for every state and every custom sink handle, `removeSink` leaves in
each channel the previous sink list with every occurrence of the handle
filtered out, the other sinks keeping their order; the handle is attached to
no channel afterwards, however often it had been added; nothing else in the
state changes; and when the handle was attached to neither channel the state
is unchanged. -/
theorem removeSink_filters (a : Nat) (g : Globals) :
    (Logger.removeSink a g).default_logger.sinks
        = g.default_logger.sinks.filter (fun x => decide (x ≠ Sink.custom a)) ∧
      (Logger.removeSink a g).cout_logger.sinks
        = g.cout_logger.sinks.filter (fun x => decide (x ≠ Sink.custom a)) ∧
      (Logger.removeSink a g).default_logger.sinks.Sublist g.default_logger.sinks ∧
      (Logger.removeSink a g).cout_logger.sinks.Sublist g.cout_logger.sinks ∧
      Sink.custom a ∉ (Logger.removeSink a g).default_logger.sinks ∧
      Sink.custom a ∉ (Logger.removeSink a g).cout_logger.sinks ∧
      (∀ n : Nat, Sink.custom a ∉ (Logger.removeSink a (Nat.iterate (Logger.addSink a) n g)).default_logger.sinks ∧
        Sink.custom a ∉ (Logger.removeSink a (Nat.iterate (Logger.addSink a) n g)).cout_logger.sinks) ∧
      (∃ ds cs, Logger.removeSink a g =
        { g with
          default_logger := { g.default_logger with sinks := ds }
          cout_logger := { g.cout_logger with sinks := cs } }) ∧
      (Sink.custom a ∉ g.default_logger.sinks → Sink.custom a ∉ g.cout_logger.sinks →
        Logger.removeSink a g = g) := by
  refine ⟨eraseRemove_eq_filter _ _, eraseRemove_eq_filter _ _, ?_, ?_,
    eraseRemove_not_mem _ _, eraseRemove_not_mem _ _, ?_, ⟨_, _, rfl⟩, ?_⟩
  · show (eraseRemove _ _).Sublist _
    rw [eraseRemove_eq_filter]; exact List.filter_sublist _
  · show (eraseRemove _ _).Sublist _
    rw [eraseRemove_eq_filter]; exact List.filter_sublist _
  · intro n
    exact ⟨eraseRemove_not_mem _ _, eraseRemove_not_mem _ _⟩
  · intro hd hc
    show removeSinkInternal _ g = g
    unfold removeSinkInternal
    rw [eraseRemove_absent _ _ hd, eraseRemove_absent _ _ hc]

/-- C9, at a concrete input: removing a sink that was never added leaves the
initial state as it is. -/
theorem removeSink_filters_witness : Logger.removeSink 7 Globals.initial = Globals.initial :=
  (removeSink_filters 7 Globals.initial).2.2.2.2.2.2.2.2 (by decide) (by decide)

end OpenSim

namespace OpenSim

/-! ## Removing the file sink -/

theorem quiet_initFileLoggingAsNeeded (d o : Bool) (g : Globals)
    (hq : d = true ∨ g.initialized = true ∨ g.filesink_auto_initialization_disabled = true)
    (hm : g.m_filesink = none) :
    (d = true ∨ (Logger.initFileLoggingAsNeeded d o g).initialized = true ∨
        (Logger.initFileLoggingAsNeeded d o g).filesink_auto_initialization_disabled = true) ∧
      (Logger.initFileLoggingAsNeeded d o g).m_filesink = none := by
  unfold Logger.initFileLoggingAsNeeded
  cases d
  · cases hi : g.initialized
    · cases hs : g.filesink_auto_initialization_disabled
      · simp [hi, hs] at hq
      · simp [hm]
    · simp [hm, hi]
  · simp [hm]

theorem quiet_step (d : Bool) (g : Globals) (op : Op) (hop : op.isAddFileSink = false)
    (hq : d = true ∨ g.initialized = true ∨ g.filesink_auto_initialization_disabled = true)
    (hm : g.m_filesink = none) :
    (d = true ∨ (step d g op).initialized = true ∨
        (step d g op).filesink_auto_initialization_disabled = true) ∧
      (step d g op).m_filesink = none := by
  cases op with
  | addFileSink p o => simp [Op.isAddFileSink] at hop
  | removeFileSink =>
    simp [step, Logger.removeFileSink, hm]
  | addSink a => exact ⟨hq, hm⟩
  | removeSink a => exact ⟨hq, hm⟩
  | setLevel T o =>
    obtain ⟨msg, he⟩ := setLevel_eq d o T g
    simp only [step, he]
    rcases info_eq d o msg (spdlog.set_level (Logger.toSpdlog T) g) with h1 | ⟨w, h1⟩
    · rw [h1]; exact ⟨hq, hm⟩
    · rw [h1]
      exact quiet_initFileLoggingAsNeeded d o (spdlog.set_level (Logger.toSpdlog T) g) hq hm
  | getDefaultLogger o => exact quiet_initFileLoggingAsNeeded d o g hq hm
  | getCoutLogger o => exact quiet_initFileLoggingAsNeeded d o g hq hm

theorem quiet_run (d : Bool) (ops : List Op) (g : Globals)
    (hops : ∀ op ∈ ops, op.isAddFileSink = false)
    (hq : d = true ∨ g.initialized = true ∨ g.filesink_auto_initialization_disabled = true)
    (hm : g.m_filesink = none) : (run d g ops).m_filesink = none := by
  induction ops generalizing g with
  | nil => exact hm
  | cons op ops ih =>
    obtain ⟨h1, h2⟩ := quiet_step d g op (hops op (List.mem_cons_self _ _)) hq hm
    exact ih (step d g op) (fun x hx => hops x (List.mem_cons_of_mem _ hx)) h1 h2

theorem removeFileSink_attached (g : Globals) (f : FileSink) (h : g.m_filesink = some f) :
    Logger.removeFileSink g = { removeSinkInternal (Sink.file f) g with m_filesink := none } := by
  unfold Logger.removeFileSink
  rw [h]

/-- C10, the claim refuted: from the initial state, an explicit
`addFileSink("my.log")`, then `removeFileSink()`, then the first logger
access: the access attaches a file sink at the default path. -/
theorem removed_file_sink_recreated :
    (run false Globals.initial [Op.addFileSink "my.log" true]).m_filesink
        = some (FileSink.mk 2 "my.log") ∧
      (run false Globals.initial [Op.addFileSink "my.log" true, Op.removeFileSink]).m_filesink
        = none ∧
      (run false Globals.initial
          [Op.addFileSink "my.log" true, Op.removeFileSink, Op.getDefaultLogger true]).m_filesink
        = some (FileSink.mk 3 "opensim.log") ∧
      Sink.file (FileSink.mk 3 "opensim.log") ∈
        (run false Globals.initial
          [Op.addFileSink "my.log" true, Op.removeFileSink,
            Op.getDefaultLogger true]).default_logger.sinks := by
  decide

/-- C10 (amended): in every reachable state in which a file sink is attached,
`removeFileSink()` filters that sink out of both channels, which then hold no
file sink, clears the handle and leaves the gate and the suppression flag as
they were.  When the gate had already fired, or automatic initialization was
suppressed or is compiled out, no later call other than an explicit
`addFileSink` attaches a file sink.  When the gate had not fired and nothing
was suppressed (the sink came from an explicit `addFileSink` before any
logger access), a logger access made directly after the removal, in the
state the removal leaves, makes the automatic attempt and, if the file
opens, attaches a sink at the default path. -/
theorem removeFileSink_detaches (d : Bool) (ops : List Op) (f : FileSink)
    (h : (run d Globals.initial ops).m_filesink = some f) :
    (Logger.removeFileSink (run d Globals.initial ops)).m_filesink = none ∧
      (Logger.removeFileSink (run d Globals.initial ops)).cout_logger.sinks
        = (run d Globals.initial ops).cout_logger.sinks.filter
            (fun x => decide (x ≠ Sink.file f)) ∧
      (Logger.removeFileSink (run d Globals.initial ops)).default_logger.sinks
        = (run d Globals.initial ops).default_logger.sinks.filter
            (fun x => decide (x ≠ Sink.file f)) ∧
      (Logger.removeFileSink (run d Globals.initial ops)).cout_logger.sinks.filter Sink.isFile
        = [] ∧
      (Logger.removeFileSink (run d Globals.initial ops)).default_logger.sinks.filter Sink.isFile
        = [] ∧
      (Logger.removeFileSink (run d Globals.initial ops)).initialized
        = (run d Globals.initial ops).initialized ∧
      (Logger.removeFileSink (run d Globals.initial ops)).filesink_auto_initialization_disabled
        = (run d Globals.initial ops).filesink_auto_initialization_disabled ∧
      (d = true ∨ (run d Globals.initial ops).initialized = true ∨
          (run d Globals.initial ops).filesink_auto_initialization_disabled = true →
        ∀ more : List Op, (∀ op ∈ more, op.isAddFileSink = false) →
          (run d (Logger.removeFileSink (run d Globals.initial ops)) more).m_filesink = none ∧
            (run d (Logger.removeFileSink (run d Globals.initial ops))
                more).cout_logger.sinks.filter Sink.isFile = [] ∧
            (run d (Logger.removeFileSink (run d Globals.initial ops))
                more).default_logger.sinks.filter Sink.isFile = []) ∧
      (d = false → (run d Globals.initial ops).initialized = false →
        (run d Globals.initial ops).filesink_auto_initialization_disabled = false →
        (Logger.getDefaultLogger d true
            (Logger.removeFileSink (run d Globals.initial ops))).m_filesink
          = some (FileSink.mk (run d Globals.initial ops).nextAddr defaultLogFile) ∧
        (Logger.getDefaultLogger d false
            (Logger.removeFileSink (run d Globals.initial ops))).m_filesink = none) := by
  have hinv := FileSinkInv_run d ops
  generalize run d Globals.initial ops = g at h hinv
  have hr := removeFileSink_attached g f h
  have hinv2 := FileSinkInv_removeFileSink g hinv
  have hnone : (Logger.removeFileSink g).m_filesink = none := by rw [hr]
  have hi : (Logger.removeFileSink g).initialized = g.initialized := by rw [hr]; rfl
  have hs : (Logger.removeFileSink g).filesink_auto_initialization_disabled
      = g.filesink_auto_initialization_disabled := by rw [hr]; rfl
  have hn : (Logger.removeFileSink g).nextAddr = g.nextAddr := by rw [hr]; rfl
  have hinv3 := hinv2
  rw [FileSinkInv, hnone] at hinv3
  refine ⟨hnone, ?_, ?_, hinv3.1, hinv3.2, hi, hs, ?_, ?_⟩
  · rw [hr]; exact eraseRemove_eq_filter _ _
  · rw [hr]; exact eraseRemove_eq_filter _ _
  · intro hq more hmore
    have hq2 : d = true ∨ (Logger.removeFileSink g).initialized = true ∨
        (Logger.removeFileSink g).filesink_auto_initialization_disabled = true := by
      rw [hi, hs]; exact hq
    have hm := quiet_run d more _ hmore hq2 hnone
    have hinv4 := FileSinkInv_run_from d more _ hinv2
    rw [FileSinkInv, hm] at hinv4
    exact ⟨hm, hinv4.1, hinv4.2⟩
  · intro hd hi0 hs0
    subst hd
    have e1 := initFileLoggingAsNeeded_first true (Logger.removeFileSink g)
      (hi.trans hi0) (hs.trans hs0)
    have e2 := initFileLoggingAsNeeded_first false (Logger.removeFileSink g)
      (hi.trans hi0) (hs.trans hs0)
    unfold Logger.getDefaultLogger
    rw [e1, e2]
    simp [Logger.addFileSink, hnone, addSinkInternal, default_logger_warn, hn]

/-- C10, at concrete inputs: after a logger access has fired the gate, an
added and removed file sink is not recreated by a later access; before any
access, it is. -/
theorem removeFileSink_detaches_witness :
    (run false
        (Logger.removeFileSink
          (run false Globals.initial [Op.getCoutLogger false, Op.addFileSink "my.log" true]))
        [Op.getDefaultLogger true]).m_filesink = none ∧
      (Logger.getDefaultLogger false true
          (Logger.removeFileSink
            (run false Globals.initial [Op.addFileSink "my.log" true]))).m_filesink
        = some (FileSink.mk (run false Globals.initial [Op.addFileSink "my.log" true]).nextAddr
            defaultLogFile) :=
  ⟨((removeFileSink_detaches false [Op.getCoutLogger false, Op.addFileSink "my.log" true]
      (FileSink.mk 2 "my.log") (by decide)).2.2.2.2.2.2.2.1 (by decide)
      [Op.getDefaultLogger true] (by decide)).1,
    ((removeFileSink_detaches false [Op.addFileSink "my.log" true]
      (FileSink.mk 2 "my.log") (by decide)).2.2.2.2.2.2.2.2 rfl (by decide) (by decide)).1⟩

end OpenSim

namespace OpenSim

/-! ## Level names -/

theorem mixedCase_map_toLower (name cs : List Char)
    (hname : ∀ n ∈ name, n.toLower = n ∧ n.toUpper.toLower = n)
    (h : mixedCase name cs = true) : cs.map Char.toLower = name := by
  induction name generalizing cs with
  | nil =>
    cases cs with
    | nil => rfl
    | cons c cs => simp [mixedCase] at h
  | cons n ns ih =>
    cases cs with
    | nil => simp [mixedCase] at h
    | cons c cs =>
      simp only [mixedCase, Bool.and_eq_true, Bool.or_eq_true, beq_iff_eq] at h
      obtain ⟨hc, hrest⟩ := h
      have hn := hname n (List.mem_cons_self _ _)
      have ht := ih cs (fun x hx => hname x (List.mem_cons_of_mem _ hx)) hrest
      have hhead : c.toLower = n := by
        rcases hc with rfl | rfl
        · exact hn.1
        · exact hn.2
      simp [List.map_cons, hhead, ht]

theorem levelName_chars (L : Level) :
    ∀ n ∈ (levelName L).data, n.toLower = n ∧ n.toUpper.toLower = n := by
  cases L <;> decide

theorem Lowercase_of_mixedCase (L : Level) (s : String)
    (h : mixedCase (levelName L).data s.data = true) : Lowercase s = levelName L := by
  unfold Lowercase
  rw [mixedCase_map_toLower _ _ (levelName_chars L) h]

theorem setLevelString_of_name (d o : Bool) (L : Level) (s : String) (g : Globals)
    (h : Lowercase s = levelName L) :
    Logger.setLevelString d o s g = Logger.setLevel d o L g := by
  unfold Logger.setLevelString
  rw [h]
  cases L <;> simp [levelName]

theorem getLevel_setLevel (d o : Bool) (L : Level) (g : Globals) :
    Logger.getLevel (Logger.setLevel d o L g).state = Except.ok L := by
  unfold Logger.getLevel
  rw [setLevel_default_level]
  cases L <;> rfl

/-- C6: for each of the seven level names, spelled in any mix of upper and
lower case, and from every prior state (whatever its threshold),
`setLevelString` returns normally and `getLevel()` afterwards returns the
level the name denotes. -/
theorem setLevelString_then_getLevel (d o : Bool) (L : Level) (s : String) (g : Globals)
    (h : mixedCase (levelName L).data s.data = true) :
    (Logger.setLevelString d o s g).thrown = none ∧
      Logger.getLevel (Logger.setLevelString d o s g).state = Except.ok L := by
  rw [setLevelString_of_name d o L s g (Lowercase_of_mixedCase L s h)]
  exact ⟨setLevel_thrown d o L g, getLevel_setLevel d o L g⟩

/-- C6, at a concrete input: the spelling `cRiTiCaL` from the initial
state. -/
theorem setLevelString_then_getLevel_witness :
    (Logger.setLevelString false true "cRiTiCaL" Globals.initial).thrown = none ∧
      Logger.getLevel (Logger.setLevelString false true "cRiTiCaL" Globals.initial).state
        = Except.ok Level.Critical :=
  setLevelString_then_getLevel false true Level.Critical "cRiTiCaL" Globals.initial (by decide)

/-- C7: `setLevelString(s)` throws exactly when the lower-cased `s` is none
of the seven recognized names, so the empty string, a name with surrounding
blanks and a numeric string all throw; and whenever it throws, the whole
state (threshold, sink lists, file-sink state) is the one before the call. -/
theorem setLevelString_throws_iff (d o : Bool) (s : String) (g : Globals) :
    ((Logger.setLevelString d o s g).thrown ≠ none ↔
        Lowercase s ∉ ["off", "critical", "error", "warn", "info", "debug", "trace"]) ∧
      ((Logger.setLevelString d o s g).thrown ≠ none →
        (Logger.setLevelString d o s g).state = g ∧
          Logger.getLevel (Logger.setLevelString d o s g).state = Logger.getLevel g) ∧
      (Logger.setLevelString d o "" g).thrown ≠ none ∧
      (Logger.setLevelString d o " info " g).thrown ≠ none ∧
      (Logger.setLevelString d o "2" g).thrown ≠ none := by
  have key : ∀ t : String,
      (Lowercase t ∉ ["off", "critical", "error", "warn", "info", "debug", "trace"] →
        (Logger.setLevelString d o t g).thrown ≠ none ∧
          (Logger.setLevelString d o t g).state = g) ∧
      (Lowercase t ∈ ["off", "critical", "error", "warn", "info", "debug", "trace"] →
        (Logger.setLevelString d o t g).thrown = none) := by
    intro t
    constructor
    · intro hn
      simp only [List.mem_cons, List.mem_singleton, List.not_mem_nil, or_false, not_or] at hn
      obtain ⟨h1, h2, h3, h4, h5, h6, h7⟩ := hn
      unfold Logger.setLevelString
      simp [h1, h2, h3, h4, h5, h6, h7]
    · intro hy
      simp only [List.mem_cons, List.mem_singleton, List.not_mem_nil, or_false] at hy
      rcases hy with h | h | h | h | h | h | h
      · rw [setLevelString_of_name d o Level.Off t g h]; exact setLevel_thrown _ _ _ _
      · rw [setLevelString_of_name d o Level.Critical t g h]; exact setLevel_thrown _ _ _ _
      · rw [setLevelString_of_name d o Level.Error t g h]; exact setLevel_thrown _ _ _ _
      · rw [setLevelString_of_name d o Level.Warn t g h]; exact setLevel_thrown _ _ _ _
      · rw [setLevelString_of_name d o Level.Info t g h]; exact setLevel_thrown _ _ _ _
      · rw [setLevelString_of_name d o Level.Debug t g h]; exact setLevel_thrown _ _ _ _
      · rw [setLevelString_of_name d o Level.Trace t g h]; exact setLevel_thrown _ _ _ _
  refine ⟨⟨?_, fun hn => ((key s).1 hn).1⟩, ?_, ((key "").1 (by decide)).1,
    ((key " info ").1 (by decide)).1, ((key "2").1 (by decide)).1⟩
  · intro ht hmem
    exact ht ((key s).2 hmem)
  · intro ht
    have hn : Lowercase s ∉ ["off", "critical", "error", "warn", "info", "debug", "trace"] :=
      fun hmem => ht ((key s).2 hmem)
    have hst := ((key s).1 hn).2
    exact ⟨hst, by rw [hst]⟩

/-- C7, at a concrete input: `setLevelString("verbose")` throws and leaves
the initial state as it is. -/
theorem setLevelString_throws_iff_witness :
    (Logger.setLevelString false true "verbose" Globals.initial).thrown ≠ none ∧
      (Logger.setLevelString false true "verbose" Globals.initial).state = Globals.initial :=
  ⟨(setLevelString_throws_iff false true "verbose" Globals.initial).1.2 (by decide),
    ((setLevelString_throws_iff false true "verbose" Globals.initial).2.1
      ((setLevelString_throws_iff false true "verbose" Globals.initial).1.2 (by decide))).1⟩

end OpenSim

namespace OpenSim

/-! ## The confirmation message of `setLevel` -/

theorem getLevelString_setLevel (d o : Bool) (L : Level) (g : Globals) :
    Logger.getLevelString (Logger.setLevel d o L g).state = Except.ok (levelText L) := by
  unfold Logger.getLevelString
  rw [getLevel_setLevel]
  cases L <;> rfl

theorem setLevel_state (d o : Bool) (L : Level) (g : Globals) :
    (Logger.setLevel d o L g).state
      = Logger.info d o ("Set log level to " ++ levelText L ++ ".")
          (spdlog.set_level (Logger.toSpdlog L) g) := by
  cases L <;> rfl

theorem log_level (lg : spdlog.logger) (lvl : spdlog.level_enum) (msg : String) :
    ∀ x ∈ lg.log lvl msg, x.level = lvl ∧ x.text = msg ∧ x.sink ∈ lg.sinks := by
  intro x hx
  unfold spdlog.logger.log at hx
  split at hx
  · obtain ⟨s, hs, rfl⟩ := List.mem_map.mp hx
    exact ⟨rfl, rfl, hs⟩
  · simp at hx

theorem addFileSink_default_name (o : Bool) (p : String) (g : Globals) :
    (Logger.addFileSink o p g).default_logger.name = g.default_logger.name := by
  unfold Logger.addFileSink
  cases g.m_filesink <;> cases o <;> rfl

theorem initFileLoggingAsNeeded_default_name (d o : Bool) (g : Globals) :
    (Logger.initFileLoggingAsNeeded d o g).default_logger.name = g.default_logger.name := by
  unfold Logger.initFileLoggingAsNeeded
  split
  · rfl
  · split
    · rfl
    · split
      · rfl
      · exact addFileSink_default_name o defaultLogFile _

theorem info_admitted (d o : Bool) (msg : String) (g : Globals)
    (h : g.default_logger.level.toNat ≤ 2) :
    (Logger.info d o msg g).written
      = (Logger.getDefaultLogger d o g).written ++
          (Logger.getDefaultLogger d o g).default_logger.sinks.map
            (fun s => Delivery.mk s (Logger.getDefaultLogger d o g).default_logger.name
              spdlog.level_enum.info msg) := by
  have h0 : spdlog.level_enum.info.toNat = 2 := rfl
  have h2 : (Logger.getDefaultLogger d o g).default_logger.should_log spdlog.level_enum.info
      = true := by
    unfold Logger.getDefaultLogger
    simp [spdlog.logger.should_log, initFileLoggingAsNeeded_default_level, h0, h]
  have h1 : Logger.shouldLog Level.Info (Logger.getDefaultLogger d o g) = true := h2
  unfold Logger.info
  simp only [h1, if_true, spdlog.logger.log, h2]

theorem info_refused (d o : Bool) (msg : String) (g : Globals)
    (h : 2 < g.default_logger.level.toNat) :
    Logger.info d o msg g = Logger.getDefaultLogger d o g := by
  have h0 : spdlog.level_enum.info.toNat = 2 := rfl
  have h1 : Logger.shouldLog Level.Info (Logger.getDefaultLogger d o g) = false := by
    unfold Logger.getDefaultLogger
    simp [Logger.shouldLog, spdlog.logger.should_log, Logger.toSpdlog,
      initFileLoggingAsNeeded_default_level, h0, h]
  unfold Logger.info
  simp only [h1]
  rfl

theorem addFileSink_written (o : Bool) (p : String) (g : Globals) :
    ∃ news, (Logger.addFileSink o p g).written = g.written ++ news ∧
      ∀ x ∈ news, x.level = spdlog.level_enum.warn := by
  unfold Logger.addFileSink
  cases g.m_filesink with
  | some f => exact ⟨_, rfl, fun x hx => (log_level _ _ _ x hx).1⟩
  | none =>
    cases o with
    | true => exact ⟨[], (List.append_nil _).symm, fun x hx => absurd hx (List.not_mem_nil x)⟩
    | false => exact ⟨_, rfl, fun x hx => (log_level _ _ _ x hx).1⟩

theorem initFileLoggingAsNeeded_written (d o : Bool) (g : Globals) :
    ∃ news, (Logger.initFileLoggingAsNeeded d o g).written = g.written ++ news ∧
      ∀ x ∈ news, x.level = spdlog.level_enum.warn := by
  have hnil : ∃ news : List Delivery, g.written = g.written ++ news ∧
      ∀ x ∈ news, x.level = spdlog.level_enum.warn :=
    ⟨[], (List.append_nil _).symm, fun x hx => absurd hx (List.not_mem_nil x)⟩
  unfold Logger.initFileLoggingAsNeeded
  split
  · exact hnil
  · split
    · exact hnil
    · split
      · exact hnil
      · exact addFileSink_written o defaultLogFile { g with autoAttempts := g.autoAttempts + 1 }

/-- C11, the claim refuted: `setLevel(Warn)` from the initial state sets the
threshold to `Warn` and delivers nothing to any sink. -/
theorem setLevel_Warn_is_silent :
    Logger.getLevel (Logger.setLevel false true Level.Warn Globals.initial).state
        = Except.ok Level.Warn ∧
      (Logger.setLevel false true Level.Warn Globals.initial).state.written = [] :=
  ⟨rfl, by decide⟩

/-- C11 (amended): for every level `L`, `setLevel(L)` returns normally and
replaces the threshold with `L`.  When `L` is `Info`, `Debug` or `Trace`, the
confirmation "Set log level to <name>." is written at level `info` to every
sink of the default channel, in order, after the logger access that the
entry point makes.  When `L` is `Off`, `Critical`, `Error` or `Warn`, the new
threshold refuses the confirmation: nothing is written at level `info`, and
whatever the call appends to the output is at level `warn` (the warning of
an automatic attempt that could not open the log file). -/
theorem setLevel_confirmation (d o : Bool) (L : Level) (g : Globals) :
    (Logger.setLevel d o L g).thrown = none ∧
      Logger.getLevel (Logger.setLevel d o L g).state = Except.ok L ∧
      (rank Level.Info ≤ rank L →
        (Logger.setLevel d o L g).state.written
          = (Logger.getDefaultLogger d o (spdlog.set_level (Logger.toSpdlog L) g)).written ++
              (Logger.getDefaultLogger d o
                  (spdlog.set_level (Logger.toSpdlog L) g)).default_logger.sinks.map
                (fun s => Delivery.mk s g.default_logger.name spdlog.level_enum.info
                  ("Set log level to " ++ levelText L ++ "."))) ∧
      (rank L < rank Level.Info →
        ∃ news, (Logger.setLevel d o L g).state.written = g.written ++ news ∧
          ∀ x ∈ news, x.level = spdlog.level_enum.warn) := by
  refine ⟨setLevel_thrown d o L g, getLevel_setLevel d o L g, ?_, ?_⟩
  · intro h
    rw [setLevel_state]
    have hl : (spdlog.set_level (Logger.toSpdlog L) g).default_logger.level.toNat ≤ 2 := by
      cases L <;> first | (exfalso; revert h; decide) |
        simp [spdlog.set_level, Logger.toSpdlog, spdlog.level_enum.toNat]
    rw [info_admitted d o _ _ hl]
    have hn : (Logger.getDefaultLogger d o
        (spdlog.set_level (Logger.toSpdlog L) g)).default_logger.name = g.default_logger.name := by
      exact initFileLoggingAsNeeded_default_name d o _
    rw [hn]
  · intro h
    rw [setLevel_state]
    have hl : 2 < (spdlog.set_level (Logger.toSpdlog L) g).default_logger.level.toNat := by
      cases L <;> first | (exfalso; revert h; decide) |
        simp [spdlog.set_level, Logger.toSpdlog, spdlog.level_enum.toNat]
    rw [info_refused d o _ _ hl]
    exact initFileLoggingAsNeeded_written d o (spdlog.set_level (Logger.toSpdlog L) g)

/-- C11, at concrete inputs: `setLevel(Debug)` from the initial state (the
log file cannot be opened) writes the confirmation to the console sink of the
default channel after the warning of the failed automatic attempt, and
`setLevel(Error)` appends nothing but deliveries at level `warn`. -/
theorem setLevel_confirmation_witness :
    (Logger.setLevel false false Level.Debug Globals.initial).state.written
        = (Logger.getDefaultLogger false false
              (spdlog.set_level (Logger.toSpdlog Level.Debug) Globals.initial)).written ++
            (Logger.getDefaultLogger false false
                (spdlog.set_level (Logger.toSpdlog Level.Debug)
                  Globals.initial)).default_logger.sinks.map
              (fun s => Delivery.mk s Globals.initial.default_logger.name
                spdlog.level_enum.info ("Set log level to " ++ levelText Level.Debug ++ ".")) ∧
      (∃ news, (Logger.setLevel false false Level.Error Globals.initial).state.written
          = Globals.initial.written ++ news ∧
        ∀ x ∈ news, x.level = spdlog.level_enum.warn) :=
  ⟨(setLevel_confirmation false false Level.Debug Globals.initial).2.2.1 (by decide),
    (setLevel_confirmation false false Level.Error Globals.initial).2.2.2 (by decide)⟩

end OpenSim

namespace OpenSim

/-! ## A log file that cannot be opened -/

/-- C12: `addFileSink` has no failure to report to its caller (it returns a
state and throws nothing): for every path and every state, when the file
cannot be opened the call only appends what `default_logger->warn` writes
(deliveries at level `warn` to sinks of the default channel), and leaves the
file-sink handle, both channels' sink lists and the thresholds as they were;
in particular an empty handle stays empty, and the warning then names the
path. -/
theorem addFileSink_open_failure (p : String) (g : Globals) :
    (∃ msg, Logger.addFileSink false p g
        = { g with written := g.written ++ g.default_logger.log spdlog.level_enum.warn msg }) ∧
      (∃ news, (Logger.addFileSink false p g).written = g.written ++ news ∧
        ∀ x ∈ news, x.level = spdlog.level_enum.warn ∧ x.sink ∈ g.default_logger.sinks) ∧
      (Logger.addFileSink false p g).m_filesink = g.m_filesink ∧
      (Logger.addFileSink false p g).cout_logger = g.cout_logger ∧
      (Logger.addFileSink false p g).default_logger = g.default_logger ∧
      (g.m_filesink = none →
        (Logger.addFileSink false p g).m_filesink = none ∧
          Logger.addFileSink false p g
            = default_logger_warn
                ("Can't open file '" ++ p ++
                  "' for writing. Log file will not be created. " ++
                  "Check that you have write permissions to the specified path.") g) := by
  have key : ∃ msg, Logger.addFileSink false p g = default_logger_warn msg g := by
    unfold Logger.addFileSink
    cases g.m_filesink <;> exact ⟨_, rfl⟩
  obtain ⟨msg, hmsg⟩ := key
  refine ⟨⟨msg, hmsg⟩, ⟨_, by rw [hmsg]; rfl, fun x hx => ?_⟩, by rw [hmsg]; rfl,
    by rw [hmsg]; rfl, by rw [hmsg]; rfl, ?_⟩
  · have h := log_level g.default_logger spdlog.level_enum.warn msg x hx
    exact ⟨h.1, h.2.2⟩
  · intro hm
    have e : Logger.addFileSink false p g
        = default_logger_warn
            ("Can't open file '" ++ p ++
              "' for writing. Log file will not be created. " ++
              "Check that you have write permissions to the specified path.") g := by
      unfold Logger.addFileSink
      rw [hm]
      rfl
    exact ⟨by rw [e]; exact hm, e⟩

/-- C12, at a concrete input: from the initial state, `addFileSink` at a path
that cannot be opened leaves the handle empty. -/
theorem addFileSink_open_failure_witness :
    (Logger.addFileSink false "/no/such/dir/x.log" Globals.initial).m_filesink = none :=
  ((addFileSink_open_failure "/no/such/dir/x.log" Globals.initial).2.2.2.2.2 rfl).1

/-! ## At most one file sink -/

/-- C13: in every state reachable from the initial state by `addFileSink`,
`removeFileSink`, `addSink`, `removeSink`, `setLevel` and logger accesses,
each channel's sink list holds at most one file sink, namely the one the
handle `m_filesink` refers to; the default channel holds a file sink exactly
when the handle is non-empty, and that sink is then the handle's. -/
theorem at_most_one_file_sink (d : Bool) (ops : List Op) :
    ((run d Globals.initial ops).default_logger.sinks.filter Sink.isFile).length ≤ 1 ∧
      ((run d Globals.initial ops).cout_logger.sinks.filter Sink.isFile).length ≤ 1 ∧
      (run d Globals.initial ops).default_logger.sinks.filter Sink.isFile
        = fileSinksOf (run d Globals.initial ops).m_filesink ∧
      (run d Globals.initial ops).cout_logger.sinks.filter Sink.isFile
        = fileSinksOf (run d Globals.initial ops).m_filesink ∧
      ((∃ s ∈ (run d Globals.initial ops).default_logger.sinks, s.isFile = true) ↔
        (run d Globals.initial ops).m_filesink ≠ none) ∧
      (∀ f, Sink.file f ∈ (run d Globals.initial ops).default_logger.sinks ↔
        (run d Globals.initial ops).m_filesink = some f) := by
  have hinv := FileSinkInv_run d ops
  generalize run d Globals.initial ops = g at hinv
  obtain ⟨hc, hd⟩ := hinv
  have hlen : (fileSinksOf g.m_filesink).length ≤ 1 := by
    cases g.m_filesink <;> simp [fileSinksOf]
  refine ⟨by rw [hd]; exact hlen, by rw [hc]; exact hlen, hd, hc, ?_,
    mem_file_iff_of_filter _ _ hd⟩
  constructor
  · rintro ⟨s, hs, hf⟩
    have hmem : s ∈ g.default_logger.sinks.filter Sink.isFile := List.mem_filter.mpr ⟨hs, hf⟩
    rw [hd] at hmem
    intro hn
    rw [hn] at hmem
    simp [fileSinksOf] at hmem
  · intro hn
    cases hm : g.m_filesink with
    | none => exact absurd hm hn
    | some f =>
      exact ⟨Sink.file f, (mem_file_iff_of_filter _ _ hd f).mpr hm, rfl⟩

/-! ## Adding a sink -/

/-- C14: for every state and every custom sink handle, `addSink` appends the
handle as the last element of the console channel's and of the default
channel's sink list, the sinks attached before staying in place and in order,
and changes nothing else; a message a channel admits is then written to
the earlier sinks in their order and to the new sink last. -/
theorem addSink_appends (a : Nat) (g : Globals) :
    (Logger.addSink a g).cout_logger.sinks = g.cout_logger.sinks ++ [Sink.custom a] ∧
      (Logger.addSink a g).default_logger.sinks
        = g.default_logger.sinks ++ [Sink.custom a] ∧
      Logger.addSink a g =
        { g with
          cout_logger := { g.cout_logger with sinks := g.cout_logger.sinks ++ [Sink.custom a] }
          default_logger :=
            { g.default_logger with sinks := g.default_logger.sinks ++ [Sink.custom a] } } ∧
      (∀ (lvl : spdlog.level_enum) (msg : String),
        ((Logger.addSink a g).default_logger.log lvl msg).map Delivery.sink
            = (g.default_logger.log lvl msg).map Delivery.sink ++
                (if g.default_logger.should_log lvl then [Sink.custom a] else []) ∧
          ((Logger.addSink a g).cout_logger.log lvl msg).map Delivery.sink
            = (g.cout_logger.log lvl msg).map Delivery.sink ++
                (if g.cout_logger.should_log lvl then [Sink.custom a] else [])) := by
  refine ⟨rfl, rfl, rfl, fun lvl msg => ⟨?_, ?_⟩⟩
  · simp only [Logger.addSink, addSinkInternal, spdlog.logger.log, spdlog.logger.should_log]
    split <;> simp [Function.comp_def]
  · simp only [Logger.addSink, addSinkInternal, spdlog.logger.log, spdlog.logger.should_log]
    split <;> simp [Function.comp_def]

end OpenSim

namespace OpenSim

/-! ## The message of the exception -/

theorem beginsWith_append (n post : List Char) : beginsWith n (n ++ post) = true := by
  induction n with
  | nil => rfl
  | cons a as ih => simp [beginsWith, ih]

theorem occursIn_of_beginsWith (n hay : List Char) (h : beginsWith n hay = true) :
    occursIn n hay = true := by
  cases hay with
  | nil => exact h
  | cons c cs => simp [occursIn, h]

theorem occursIn_append (n pre post : List Char) : occursIn n (pre ++ (n ++ post)) = true := by
  induction pre with
  | nil => exact occursIn_of_beginsWith _ _ (beginsWith_append n post)
  | cons c cs ih =>
    show occursIn n (c :: (cs ++ (n ++ post))) = true
    simp [occursIn, ih]

/-- C15, the claim refuted: the exception of `setLevelString("VERBOSE")`
spells the input in lower case, and the text `VERBOSE` as supplied does not
occur in its message. -/
theorem exception_echoes_lowercase :
    (Logger.setLevelString false true "VERBOSE" Globals.initial).thrown
        = some ("Expected log level to be Off, Critical, Error, " ++
            "Warn, Info, Debug, or Trace; got verbose.") ∧
      occursIn "VERBOSE".data
          ("Expected log level to be Off, Critical, Error, " ++
            "Warn, Info, Debug, or Trace; got verbose.").data = false := by
  decide

/-- C15 (amended): for every string `s` that is not a recognized level name,
the message of the exception thrown by `setLevelString(s)` ends with the
lower-cased form of `s` followed by a full stop, so it contains the
lower-cased input; it contains `s` as supplied when `s` has no upper-case
letter to convert. -/
theorem exception_message (d o : Bool) (s : String) (g : Globals)
    (h : Lowercase s ∉ ["off", "critical", "error", "warn", "info", "debug", "trace"]) :
    (Logger.setLevelString d o s g).thrown
        = some ("Expected log level to be Off, Critical, Error, " ++
            "Warn, Info, Debug, or Trace; got " ++ Lowercase s ++ ".") ∧
      (∀ msg, (Logger.setLevelString d o s g).thrown = some msg →
        occursIn (Lowercase s).data msg.data = true ∧
          (Lowercase s = s → occursIn s.data msg.data = true)) := by
  have e : (Logger.setLevelString d o s g).thrown
      = some ("Expected log level to be Off, Critical, Error, " ++
          "Warn, Info, Debug, or Trace; got " ++ Lowercase s ++ ".") := by
    simp only [List.mem_cons, List.mem_singleton, List.not_mem_nil, or_false, not_or] at h
    obtain ⟨h1, h2, h3, h4, h5, h6, h7⟩ := h
    unfold Logger.setLevelString
    simp [h1, h2, h3, h4, h5, h6, h7]
  refine ⟨e, ?_⟩
  intro msg hmsg
  rw [e] at hmsg
  have hm := Option.some.inj hmsg
  have hocc : occursIn (Lowercase s).data msg.data = true := by
    rw [← hm]
    simp only [String.data_append, List.append_assoc]
    rw [← List.append_assoc]
    exact occursIn_append _ _ _
  exact ⟨hocc, fun hs => by rw [hs] at hocc; exact hocc⟩

/-- C15, at a concrete input: the exception for `Verbose!` contains
`verbose!`. -/
theorem exception_message_witness :
    (Logger.setLevelString false true "Verbose!" Globals.initial).thrown
      = some ("Expected log level to be Off, Critical, Error, " ++
          "Warn, Info, Debug, or Trace; got " ++ Lowercase "Verbose!" ++ ".") :=
  (exception_message false true "Verbose!" Globals.initial (by decide)).1

end OpenSim

namespace OpenSim

/-! ## The stored threshold -/

theorem removeFileSink_default_level (g : Globals) :
    (Logger.removeFileSink g).default_logger.level = g.default_logger.level := by
  unfold Logger.removeFileSink
  cases g.m_filesink <;> rfl

theorem step_level (d : Bool) (g : Globals) (op : Op)
    (h : ∃ T, g.default_logger.level = Logger.toSpdlog T) :
    ∃ T, (step d g op).default_logger.level = Logger.toSpdlog T := by
  cases op with
  | addFileSink p o => simpa only [step, addFileSink_default_level] using h
  | removeFileSink => simpa only [step, removeFileSink_default_level] using h
  | addSink a => exact h
  | removeSink a => exact h
  | setLevel T o => exact ⟨T, setLevel_default_level d o T g⟩
  | getDefaultLogger o =>
    simpa only [step, Logger.getDefaultLogger, initFileLoggingAsNeeded_default_level] using h
  | getCoutLogger o =>
    simpa only [step, Logger.getCoutLogger, initFileLoggingAsNeeded_default_level] using h

theorem run_level (d : Bool) (ops : List Op) (g : Globals)
    (h : ∃ T, g.default_logger.level = Logger.toSpdlog T) :
    ∃ T, (run d g ops).default_logger.level = Logger.toSpdlog T := by
  induction ops generalizing g with
  | nil => exact h
  | cons op ops ih => exact ih (step d g op) (step_level d g op h)

theorem getLevel_of_level (g : Globals) (T : Level)
    (h : g.default_logger.level = Logger.toSpdlog T) :
    Logger.getLevel g = Except.ok T ∧ Logger.getLevelString g = Except.ok (levelText T) := by
  unfold Logger.getLevelString Logger.getLevel
  rw [h]
  cases T <;> exact ⟨rfl, rfl⟩

/-- C17: in every state reachable from the initial state through the public
operations, the threshold stored in the default channel is one of the seven
levels, never the eighth enumerator `n_levels`; so `getLevel` and
`getLevelString` return that level and its text rather than throwing
"Internal error.", `setLevel` returns normally for each of the seven levels,
and `shouldLog` (whose argument type has the seven enumerators only) answers
by the rank comparison with the stored level. -/
theorem internal_error_unreachable (d : Bool) (ops : List Op) :
    (run d Globals.initial ops).default_logger.level ≠ spdlog.level_enum.n_levels ∧
      (∃ T : Level,
        (run d Globals.initial ops).default_logger.level = Logger.toSpdlog T ∧
          Logger.getLevel (run d Globals.initial ops) = Except.ok T ∧
          Logger.getLevelString (run d Globals.initial ops) = Except.ok (levelText T) ∧
          ∀ L : Level,
            Logger.shouldLog L (run d Globals.initial ops) = decide (rank L ≤ rank T)) ∧
      (∀ (o : Bool) (L : Level),
        (Logger.setLevel d o L (run d Globals.initial ops)).thrown = none ∧
          Logger.getLevel (Logger.setLevel d o L (run d Globals.initial ops)).state
            = Except.ok L) := by
  obtain ⟨T, hT⟩ := run_level d ops Globals.initial ⟨Level.Info, rfl⟩
  refine ⟨?_, ⟨T, hT, (getLevel_of_level _ T hT).1, (getLevel_of_level _ T hT).2, ?_⟩,
    fun o L => ⟨setLevel_thrown d o L _, getLevel_setLevel d o L _⟩⟩
  · rw [hT]; cases T <;> decide
  · intro L
    unfold Logger.shouldLog spdlog.logger.should_log
    rw [hT]
    cases T <;> cases L <;> decide

/-! ## The text form of a level -/

theorem Lowercase_levelText (L : Level) : Lowercase (levelText L) = levelName L := by
  cases L <;> decide

/-- C18: for every level `L`, after `setLevel(L)` the string that
`getLevelString()` returns is the text of `L`; from every prior state,
whatever its threshold, `setLevelString` accepts that string (it does not
throw) and sets the threshold to `L`, so the text parses back to `L`; in
particular `setLevelString(getLevelString())` leaves `getLevel()` unchanged;
and two levels have the same string only when they are the same level. -/
theorem level_text_round_trip (d o d2 o2 : Bool) (L : Level) (g : Globals) :
    Logger.getLevelString (Logger.setLevel d o L g).state = Except.ok (levelText L) ∧
      (∀ (g2 : Globals) (str : String),
        Logger.getLevelString (Logger.setLevel d o L g).state = Except.ok str →
          (Logger.setLevelString d2 o2 str g2).thrown = none ∧
            Logger.getLevel (Logger.setLevelString d2 o2 str g2).state = Except.ok L ∧
            (Logger.setLevelString d2 o2 str g2).state.default_logger.level
              = Logger.toSpdlog L) ∧
      (∀ g2 : Globals,
        (Logger.setLevelString d2 o2 (levelText L) g2).thrown = none ∧
          Logger.getLevel (Logger.setLevelString d2 o2 (levelText L) g2).state
            = Except.ok L) ∧
      (Logger.setLevelString d2 o2 (levelText L) (Logger.setLevel d o L g).state).thrown
        = none ∧
      Logger.getLevel
          (Logger.setLevelString d2 o2 (levelText L) (Logger.setLevel d o L g).state).state
        = Except.ok L ∧
      Logger.getLevel
          (Logger.setLevelString d2 o2 (levelText L) (Logger.setLevel d o L g).state).state
        = Logger.getLevel (Logger.setLevel d o L g).state ∧
      (∀ L2 : Level,
        Logger.getLevelString (Logger.setLevel d o L2 g).state
            = Logger.getLevelString (Logger.setLevel d o L g).state ↔ L2 = L) := by
  have hany : ∀ g2 : Globals,
      Logger.setLevelString d2 o2 (levelText L) g2 = Logger.setLevel d2 o2 L g2 :=
    fun g2 => setLevelString_of_name d2 o2 L (levelText L) g2 (Lowercase_levelText L)
  have hs := hany (Logger.setLevel d o L g).state
  refine ⟨getLevelString_setLevel d o L g, ?_, ?_, ?_, ?_, ?_, ?_⟩
  · intro g2 str hstr
    rw [getLevelString_setLevel] at hstr
    have hstr2 : levelText L = str := Except.ok.inj hstr
    rw [← hstr2, hany g2]
    exact ⟨setLevel_thrown _ _ _ _, getLevel_setLevel _ _ _ _, setLevel_default_level _ _ _ _⟩
  · intro g2
    rw [hany g2]
    exact ⟨setLevel_thrown _ _ _ _, getLevel_setLevel _ _ _ _⟩
  · rw [hs]; exact setLevel_thrown _ _ _ _
  · rw [hs]; exact getLevel_setLevel _ _ _ _
  · rw [hs, getLevel_setLevel, getLevel_setLevel]
  · intro L2
    rw [getLevelString_setLevel, getLevelString_setLevel]
    constructor
    · intro h
      have h2 : levelText L2 = levelText L := Except.ok.inj h
      revert h2
      cases L2 <;> cases L <;> decide
    · intro h
      rw [h]

/-- C18, at a concrete input: the text that `getLevelString()` returns after
`setLevel(Trace)` is parsed from the initial state, whose threshold is
`Info`, and sets the threshold `Trace`. -/
theorem level_text_round_trip_witness :
    Logger.getLevel (Logger.setLevel false true Level.Info Globals.initial).state
        = Except.ok Level.Info ∧
      (Logger.setLevelString false true "Trace"
          (Logger.setLevel false true Level.Info Globals.initial).state).thrown = none ∧
      Logger.getLevel
          (Logger.setLevelString false true "Trace"
            (Logger.setLevel false true Level.Info Globals.initial).state).state
        = Except.ok Level.Trace :=
  ⟨rfl,
    ((level_text_round_trip false true false true Level.Trace Globals.initial).2.1
      (Logger.setLevel false true Level.Info Globals.initial).state "Trace" rfl).1,
    ((level_text_round_trip false true false true Level.Trace Globals.initial).2.1
      (Logger.setLevel false true Level.Info Globals.initial).state "Trace" rfl).2.1⟩

/-! ## `setLevel` as a first use -/

/-- C19: in the default build, from the initial state, `setLevel(L)` for `L`
among `Info`, `Debug` and `Trace` fires the lazy gate: the one automatic
`addFileSink()` at the default path is made during the call, and attaches
the file sink when the file opens.  A `removeFileSink()` issued afterwards
leaves that attempt made, whereas issued before the `setLevel` it suppresses
the attempt. -/
theorem setLevel_is_first_use (o : Bool) (L : Level) (h : rank Level.Info ≤ rank L) :
    (Logger.setLevel false o L Globals.initial).state.initialized = true ∧
      (Logger.setLevel false o L Globals.initial).state.autoAttempts = 1 ∧
      (Logger.setLevel false o L Globals.initial).state.m_filesink
        = (if o then some (FileSink.mk 2 defaultLogFile) else none) ∧
      (Logger.setLevel false o L Globals.initial).state
        = Logger.info false o ("Set log level to " ++ levelText L ++ ".")
            (spdlog.set_level (Logger.toSpdlog L) Globals.initial) ∧
      (Logger.removeFileSink (Logger.setLevel false o L Globals.initial).state).autoAttempts
        = 1 ∧
      (Logger.setLevel false o L (Logger.removeFileSink Globals.initial)).state.autoAttempts
        = 0 ∧
      (Logger.setLevel false o L (Logger.removeFileSink Globals.initial)).state.m_filesink
        = none := by
  cases L <;> first | (exfalso; revert h; decide) | (cases o <;> decide)

/-- C19, at a concrete input: `setLevel(Debug)` from the initial state, the
log file opening, attaches the default file sink. -/
theorem setLevel_is_first_use_witness :
    (Logger.setLevel false true Level.Debug Globals.initial).state.autoAttempts = 1 ∧
      (Logger.setLevel false true Level.Debug Globals.initial).state.m_filesink
        = some (FileSink.mk 2 defaultLogFile) :=
  ⟨(setLevel_is_first_use true Level.Debug (by decide)).2.1,
    (setLevel_is_first_use true Level.Debug (by decide)).2.2.1⟩

end OpenSim
